import Mathlib

/-
  Verification development for the AFE instrument-controller firmware
  (controller.py).  Strings are embedded as `List Char`; Python integers
  as `Int`/`Nat`; sensor values (Python floats used only for exact
  decimal constants and small-denominator arithmetic here) as `Rat`;
  functions that can raise an uncaught Python exception return `Option`
  or `Except` (`none`/`.error` = the call raises).
-/

namespace AFE

/-! ## Python string primitives used by the codec -/

/-- Python `s.strip(cs)`: remove the characters of `cs` from both ends. -/
def pyStrip (cs : List Char) (s : List Char) : List Char :=
  ((s.dropWhile (fun c => decide (c ∈ cs))).reverse.dropWhile
    (fun c => decide (c ∈ cs))).reverse

/-- Whitespace accepted by Python `int()` (ASCII part). -/
def isPySpace (c : Char) : Bool :=
  c = ' ' || c = '\t' || c = '\n' || c = '\r' || c.toNat = 11 || c.toNat = 12

/-- Strip leading and trailing whitespace, as Python `int()` does. -/
def pyStripWs (s : List Char) : List Char :=
  ((s.dropWhile isPySpace).reverse.dropWhile isPySpace).reverse

/-- Value of one hexadecimal digit character, if any. -/
def hexVal (c : Char) : Option Nat :=
  if '0' ≤ c ∧ c ≤ '9' then some (c.toNat - 48)
  else if 'a' ≤ c ∧ c ≤ 'f' then some (c.toNat - 87)
  else if 'A' ≤ c ∧ c ≤ 'F' then some (c.toNat - 55)
  else none

/-- Value of one decimal digit character, if any. -/
def decVal (c : Char) : Option Nat :=
  if '0' ≤ c ∧ c ≤ '9' then some (c.toNat - 48) else none

/-- Digit run of a Python integer literal after its first digit:
further digits with single underscores allowed between digits. -/
def pyDigitsCore (digVal : Char → Option Nat) (base : Nat) :
    List Char → Nat → Option Nat
  | [], acc => some acc
  | '_' :: rest, acc =>
    match rest with
    | [] => none
    | c :: rest2 =>
      match digVal c with
      | some v => pyDigitsCore digVal base rest2 (acc * base + v)
      | none => none
  | c :: rest, acc =>
    match digVal c with
    | some v => pyDigitsCore digVal base rest (acc * base + v)
    | none => none

/-- Unsigned digit part of a Python integer literal.  `allowLeadUnd` is
true just after a base prefix such as `0x`, where Python accepts one
leading underscore. -/
def pyIntCore (digVal : Char → Option Nat) (base : Nat) (allowLeadUnd : Bool)
    (s : List Char) : Option Nat :=
  match s with
  | [] => none
  | '_' :: rest =>
    if allowLeadUnd then
      match rest with
      | c :: rest2 =>
        match digVal c with
        | some v => pyDigitsCore digVal base rest2 v
        | none => none
      | [] => none
    else none
  | c :: rest =>
    match digVal c with
    | some v => pyDigitsCore digVal base rest v
    | none => none

/-- Body of `int(s, 16)` after whitespace and sign: an optional `0x`
or `0X` prefix, then hex digits. -/
def pyHexBody : List Char → Option Nat
  | '0' :: 'x' :: rest => pyIntCore hexVal 16 true rest
  | '0' :: 'X' :: rest => pyIntCore hexVal 16 true rest
  | s => pyIntCore hexVal 16 false s

/-- Python `int(s, 16)`; `none` means the call raises `ValueError`. -/
def pyIntHex (s : List Char) : Option Int :=
  match pyStripWs s with
  | '+' :: rest => (pyHexBody rest).map Int.ofNat
  | '-' :: rest => (pyHexBody rest).map (fun n => -(n : Int))
  | rest => (pyHexBody rest).map Int.ofNat

/-- Python `int(s)` (base 10); `none` means the call raises `ValueError`. -/
def pyIntDec (s : List Char) : Option Int :=
  match pyStripWs s with
  | '+' :: rest => (pyIntCore decVal 10 false rest).map Int.ofNat
  | '-' :: rest => (pyIntCore decVal 10 false rest).map (fun n => -(n : Int))
  | rest => (pyIntCore decVal 10 false rest).map Int.ofNat

/-! ## Packet codec (`eval_packet`, `add_cksum`) -/

/-- `reduce(xor, (ord(s) for s in nmeadata), 0)`. -/
def xorSum (s : List Char) : Nat :=
  s.foldl (fun a c => a ^^^ c.toNat) 0

/-- Uppercase hex digit for a value below 16. -/
def hexDigitUpper (k : Nat) : Char :=
  if k < 10 then Char.ofNat (48 + k) else Char.ofNat (55 + k)

/-- Digit recursion for `natHexChars`, structured on a fuel argument
so that it reduces inside the kernel; `fuel ≥ n` always suffices. -/
def natHexCharsAux : Nat → Nat → List Char
  | 0, n => [hexDigitUpper (n % 16)]
  | fuel + 1, n =>
    if n < 16 then [hexDigitUpper n]
    else natHexCharsAux fuel (n / 16) ++ [hexDigitUpper (n % 16)]

/-- Minimal-length uppercase hexadecimal digits of `n`; together with
`hexPad2Upper` this is `hex(n).split('x')[1].upper()` plus the
single-digit zero padding done in `add_cksum`. -/
def natHexChars (n : Nat) : List Char :=
  natHexCharsAux n n

/-- The checksum string appended by `add_cksum`: uppercase hex,
zero-padded to two digits when a single digit. -/
def hexPad2Upper (n : Nat) : List Char :=
  let d := natHexChars n
  if d.length = 1 then '0' :: d else d

/-- Result triple of `eval_packet`: `(err_code, ascii_checksum,
calculated_checksum)`.  `asciiCk = none` embeds the dynamically typed
early-error case in which the integer 0 is returned in that position. -/
structure EvalRes where
  errCode : Int
  asciiCk : Option (List Char)
  calcCk : Nat
deriving DecidableEq, Repr

/-- `packet.strip("$\n").split("*",1)[0]`: the checksummed body. -/
def sentenceBody (p : List Char) : List Char :=
  (pyStrip ['$', '\n'] p).takeWhile (· != '*')

/-- `packet.strip("$\n").split("*",1)[1]`: the declared checksum field
(everything after the first `'*'` of the stripped packet). -/
def sentenceCkField (p : List Char) : List Char :=
  ((pyStrip ['$', '\n'] p).dropWhile (· != '*')).tail

/-- `eval_packet(packet, gen_cksm_f)` of controller.py.  `none` embeds
the uncaught `IndexError` raised by `packet[0]` on an empty string.
On every non-empty input the split at `'*'` is reached only when the
`'$'`/`'*'` counts agree and the first character is `'$'`, so at least
one `'*'` survives `strip` and the two-way unpacking cannot raise. -/
def eval_packet (packet : List Char) (genCksm : Bool) : Option EvalRes :=
  match packet with
  | [] => none
  | c0 :: _ =>
    if c0 = '$' then
      if packet.count '$' ≠ packet.count '*' then some ⟨-1, none, 0⟩
      else
        if genCksm then
          some ⟨0, some (sentenceCkField packet), xorSum (sentenceBody packet)⟩
        else
          match pyIntHex (sentenceCkField packet) with
          | none => some ⟨-3, some (sentenceCkField packet), 0⟩
          | some v =>
            if v = (xorSum (sentenceBody packet) : Int) then
              some ⟨0, some (sentenceCkField packet), xorSum (sentenceBody packet)⟩
            else
              some ⟨-4, some (sentenceCkField packet), xorSum (sentenceBody packet)⟩
    else some ⟨-2, none, 0⟩

/-- `add_cksum(pkt_in)` of controller.py: validates the frame in
generate mode and appends the computed checksum as two (or more)
uppercase hex digits.  `none` embeds a raise inside `eval_packet`. -/
def add_cksum (pktIn : List Char) : Option (Bool × List Char) :=
  match eval_packet pktIn true with
  | none => none
  | some r =>
    if r.errCode ≠ 0 then some (true, [])
    else some (false, pktIn ++ hexPad2Upper r.calcCk)

/-- Spec-worded predicate for claim C5: the trailing checksum field is
exactly two hexadecimal digits. -/
def isTwoHexDigits (s : List Char) : Bool :=
  s.length = 2 && s.all (fun c => (hexVal c).isSome)

/-! ## Decimal rendering (for the `"%d"` pieces of query responses) -/

/-- Digit recursion for `natDecChars` on a fuel argument, as for
`natHexCharsAux`. -/
def natDecCharsAux : Nat → Nat → List Char
  | 0, n => [Char.ofNat (48 + n % 10)]
  | fuel + 1, n =>
    if n < 10 then [Char.ofNat (48 + n)]
    else natDecCharsAux fuel (n / 10) ++ [Char.ofNat (48 + n % 10)]

/-- Decimal digits of a natural number, most significant first. -/
def natDecChars (n : Nat) : List Char :=
  natDecCharsAux n n

/-- Python `"%d" % i`. -/
def intDecChars (i : Int) : List Char :=
  if i < 0 then '-' :: natDecChars i.natAbs else natDecChars i.toNat

/-- `params2string(theCmd)`: everything between the first comma and the
`'*'`, i.e. the parameter fields rejoined with commas. -/
def params2string (theCmd : List Char) : List Char :=
  let cmdNoCk := theCmd.takeWhile (· != '*')
  let paramList := cmdNoCk.splitOn ','
  List.intercalate [','] paramList.tail

/-! ## Daisy-chain byte construction (`maxStr2SpiList`) -/

/-- The MAX port-expander no-op (address, value) pair: address 32 is
the documented "don't care" address. -/
def theDummy : List Nat := [32, 0]

/-- The `'0'`/`'1'` token test of the `maxStr2SpiList` loop; any other
token is treated as an `x` don't-care and skipped. -/
def tokBit (t : List Char) : Option Nat :=
  if t = ['0'] then some 0 else if t = ['1'] then some 1 else none

/-- Group construction of the `maxStr2SpiList` loop for one
(address, value) pair, by chain size, chain selector and copy flag. -/
def grpOf (daisy daiSel : Nat) (copyF : Bool) (thePair : List Nat) : List Nat :=
  if daisy = 1 then thePair
  else if daisy = 2 then
    if copyF then thePair ++ thePair
    else if daiSel = 1 then theDummy ++ thePair
    else thePair ++ theDummy
  else
    if copyF then thePair ++ thePair ++ thePair ++ thePair
    else if daiSel = 1 then theDummy ++ theDummy ++ theDummy ++ thePair
    else if daiSel = 2 then theDummy ++ theDummy ++ thePair ++ theDummy
    else if daiSel = 3 then theDummy ++ thePair ++ theDummy ++ theDummy
    else thePair ++ theDummy ++ theDummy ++ theDummy

/-- Loop body of `maxStr2SpiList`: one group of flattened
(address, value) pairs per `'0'`/`'1'` token, other tokens skipped. -/
def maxSpiGroups (addrOfs daisy daiSel : Nat) (copyF : Bool) :
    List (List Char) → Nat → List (List Nat)
  | [], _ => []
  | t :: rest, ii =>
    let tailGroups := maxSpiGroups addrOfs daisy daiSel copyF rest (ii + 1)
    match tokBit t with
    | none => tailGroups
    | some ival => grpOf daisy daiSel copyF [ii + addrOfs, ival] :: tailGroups

/-- Closed form of a non-broadcast group: the target pair sits
`daisy - daiSel` slots from the front of the clocked burst, so chip
`daiSel` — counting from the chip that receives the *last* clocked
pair — gets its own pair, and every other slot is the no-op pair. -/
def groupAt (daisy daiSel addr ival : Nat) : List Nat :=
  List.flatten (List.replicate (daisy - daiSel) theDummy) ++ [addr, ival] ++
    List.flatten (List.replicate (daiSel - 1) theDummy)

/-- Closed form of a broadcast group: the identical pair in every
chain position. -/
def bcastGroup (daisy addr ival : Nat) : List Nat :=
  List.flatten (List.replicate daisy [addr, ival])

/-- `maxStr2SpiList(str_in, addr_ofs, daisy, dai_sel, copy_f)` of
controller.py: first component is `err_f`, second the list of byte
groups clocked per logical write. -/
def maxStr2SpiList (strIn : List Char) (addrOfs : Nat) (daisy : Nat := 1)
    (daiSel : Nat := 1) (copyF : Bool := false) : Bool × List (List Nat) :=
  let scanList := strIn.splitOn ','
  let maxCnt := scanList.length
  if maxCnt + addrOfs > 10 then (true, [])
  else if ¬(daisy = 1 ∨ daisy = 2 ∨ daisy = 4) then (true, [])
  else if ¬((daisy = 1 ∧ daiSel = 1) ∨ (daisy = 2 ∧ 1 ≤ daiSel ∧ daiSel ≤ 2) ∨
            (daisy = 4 ∧ 1 ≤ daiSel ∧ daiSel ≤ 4)) then (true, [])
  else (false, maxSpiGroups addrOfs daisy daiSel copyF scanList 0)

/-! ## Port-expander shadow registers and `handle_max_cmd` -/

/-- One bit token of a port-expander set command, normalized by
`maxList2str`: `"1"`, `"0"`, or `"x"`/`"X"` (don't care). -/
def maxTokenNorm (t : List Char) : Option Char :=
  if t = ['1'] then some '1'
  else if t = ['0'] then some '0'
  else if t.map Char.toUpper = ['X'] then some 'x'
  else none

/-- Loop of `maxList2str` on string tokens (the parameter-list case):
builds the comma-joined bit string, stopping with `err_f` at the first
invalid token and keeping the partial string, as the source loop does. -/
def maxList2strGo : List (List Char) → Bool × List Char
  | [] => (false, [])
  | [t] =>
    match maxTokenNorm t with
    | some c => (false, [c])
    | none => (true, [])
  | t :: rest =>
    match maxTokenNorm t with
    | some c =>
      let (e, s) := maxList2strGo rest
      (e, c :: ',' :: s)
    | none => (true, [])

/-- `maxList2str(maxList)` of controller.py applied to a list of
parameter strings; returns `(err_f, maxStr)`. -/
def maxList2str (tokens : List (List Char)) (maxLen : Nat := 10) :
    Bool × List Char :=
  if tokens.length > maxLen then (true, [])
  else maxList2strGo tokens

/-- `maxList2str` applied to a shadow-register list of Python ints, as
the query branches do; only the values 0 and 1 are representable there. -/
def maxList2strInt (vals : List Int) (maxLen : Nat := 10) : Bool × List Char :=
  if vals.length > maxLen then (true, [])
  else go vals
where
  go : List Int → Bool × List Char
    | [] => (false, [])
    | [v] => if v = 1 then (false, ['1']) else if v = 0 then (false, ['0']) else (true, [])
    | v :: rest =>
      if v = 1 ∨ v = 0 then
        let (e, s) := go rest
        (e, (if v = 1 then '1' else '0') :: ',' :: s)
      else (true, [])

/-- Loop of `updateShadowMax`: stores `int(srcList[ii])` at
`offset + ii`.  `.error` embeds an uncaught exception (a `ValueError`
from `int` on an `x`/`X` token, or an `IndexError` on an out-of-range
store), carrying the destination list as already mutated in place. -/
def updateShadowGo (offset : Nat) : List (List Char) → Nat → List Int →
    Except (List Int) (List Int)
  | [], _, dst => .ok dst
  | t :: rest, ii, dst =>
    match pyIntDec t with
    | none => .error dst
    | some v =>
      if offset + ii < dst.length then
        updateShadowGo offset rest (ii + 1) (dst.set (offset + ii) v)
      else .error dst

/-- `updateShadowMax(offset, srcList, dstList)` of controller.py. -/
def updateShadowMax (offset : Nat) (srcList : List (List Char))
    (dstList : List Int) : Except (List Int) (List Int) :=
  updateShadowGo offset srcList 0 dstList

/-- The seven per-chip shadow registers (10 positions each). -/
structure MaxShadows where
  misc : List Int
  tx1 : List Int
  tx2 : List Int
  rx1 : List Int
  rx2 : List Int
  rx3 : List Int
  rx4 : List Int
deriving DecidableEq, Repr

def MAX_MISC_DEF : List Int := [1, 1, 1, 1, 0, 0, 0, 1, 1, 0]

def MAX_TX_DEF : List Int := [0, 1, 1, 0, 0, 0, 0, 0, 0, 0]

def MAX_RX_DEF : List Int := [0, 1, 1, 1, 0, 0, 0, 0, 0, 0]

/-- Boot-time shadow state (the `.copy()` of the defaults). -/
def bootShadows : MaxShadows :=
  ⟨MAX_MISC_DEF, MAX_TX_DEF, MAX_TX_DEF, MAX_RX_DEF, MAX_RX_DEF, MAX_RX_DEF, MAX_RX_DEF⟩

/-- Outcome of the shared parameter block of the `handle_max_cmd` set
branches.  `raise` embeds the `NameError` in the out-of-range error
print, which references the undefined name `index`. -/
inductive MaxParams where
  | raise
  | fail (ec : Int)
  | ok (ofs : Nat) (bits : List (List Char))
deriving DecidableEq, Repr

/-- The `acquire and verify parameters` block repeated in each set
branch of `handle_max_cmd`. -/
def parseMaxParams (theCmd : List Char) : MaxParams :=
  let paramList := (theCmd.takeWhile (· != '*')).splitOn ','
  if paramList.length < 3 then .fail (-1)
  else
    match pyIntDec (paramList.getD 1 []) with
    | none => .fail (-2)
    | some ofs =>
      if ofs < 0 ∨ 9 < ofs then .raise
      else .ok ofs.toNat (paramList.drop 2)

/-- One set clause of `handle_max_cmd` acting on one shadow register:
parse, convert, update the shadow, with the source's quirk that a
`maxList2str`/`maxStr2SpiList` failure skips the action but leaves
`err_code` at 0.  Returns `(err_code, queryStr, register)` or the
partially mutated register when `updateShadowMax` raises. -/
def maxSetClause (daisy daiSel : Nat) (theCmd : List Char) (reg : List Int) :
    Except (List Int) (Int × List Char × List Int) :=
  let paramList := (theCmd.takeWhile (· != '*')).splitOn ','
  let echo := List.intercalate [','] paramList.tail
  match parseMaxParams theCmd with
  | .raise => .error reg
  | .fail ec => .ok (ec, echo, reg)
  | .ok ofs bits =>
    let (e1, bitStr) := maxList2str bits
    if e1 then .ok (0, echo, reg)
    else
      let (e2, _byteList) := maxStr2SpiList bitStr ofs daisy daiSel false
      if e2 then .ok (0, echo, reg)
      else
        match updateShadowMax ofs bits reg with
        | .error partialReg => .error partialReg
        | .ok reg2 => .ok (0, echo, reg2)

/-- `handle_max_cmd(theCmd, vector)` of controller.py, acting on the
shadow-register state.  `.error` embeds an uncaught exception, carrying
the global state as mutated up to the raise. -/
def handle_max_cmd (theCmd vector : List Char) (st : MaxShadows) :
    Except MaxShadows ((Int × List Char × List Char) × MaxShadows) :=
  match add_cksum theCmd with
  | none => .error st
  | some (errF, _) =>
    if errF then .ok ((-10, [], []), st)
    else if vector = "MAX,".toList then
      match maxSetClause 1 1 theCmd st.misc with
      | .error reg => .error { st with misc := reg }
      | .ok (ec, echo, reg2) => .ok ((ec, "MAX".toList, echo), { st with misc := reg2 })
    else if vector = "MA?*".toList then
      .ok ((0, "MA?".toList, (maxList2strInt st.misc).2), st)
    else if vector = "XT1?".toList then
      .ok ((0, "XT1".toList, (maxList2strInt st.tx1).2), st)
    else if vector = "XT2?".toList then
      .ok ((0, "XT2".toList, (maxList2strInt st.tx2).2), st)
    else if vector = "XT1,".toList then
      match maxSetClause 2 1 theCmd st.tx1 with
      | .error reg => .error { st with tx1 := reg }
      | .ok (ec, echo, reg2) => .ok ((ec, "XT1".toList, echo), { st with tx1 := reg2 })
    else if vector = "XT2,".toList then
      match maxSetClause 2 2 theCmd st.tx2 with
      | .error reg => .error { st with tx2 := reg }
      | .ok (ec, echo, reg2) => .ok ((ec, "XT2".toList, echo), { st with tx2 := reg2 })
    else if vector = "XR1?".toList then
      .ok ((0, "XR1".toList, (maxList2strInt st.rx1).2), st)
    else if vector = "XR2?".toList then
      .ok ((0, "XR2".toList, (maxList2strInt st.rx2).2), st)
    else if vector = "XR3?".toList then
      .ok ((0, "XR3".toList, (maxList2strInt st.rx3).2), st)
    else if vector = "XR4?".toList then
      .ok ((0, "XR4".toList, (maxList2strInt st.rx4).2), st)
    else if vector = "XR1,".toList then
      match maxSetClause 4 1 theCmd st.rx1 with
      | .error reg => .error { st with rx1 := reg }
      | .ok (ec, echo, reg2) => .ok ((ec, "RX1".toList, echo), { st with rx1 := reg2 })
    else if vector = "XR2,".toList then
      match maxSetClause 4 2 theCmd st.rx2 with
      | .error reg => .error { st with rx2 := reg }
      | .ok (ec, echo, reg2) => .ok ((ec, "XR2".toList, echo), { st with rx2 := reg2 })
    else if vector = "XR3,".toList then
      match maxSetClause 4 3 theCmd st.rx3 with
      | .error reg => .error { st with rx3 := reg }
      | .ok (ec, echo, reg2) => .ok ((ec, "XR3".toList, echo), { st with rx3 := reg2 })
    else if vector = "XR4,".toList then
      match maxSetClause 4 4 theCmd st.rx4 with
      | .error reg => .error { st with rx4 := reg }
      | .ok (ec, echo, reg2) => .ok ((ec, "XR4".toList, echo), { st with rx4 := reg2 })
    else .ok ((-30, vector, []), st)

/-! ## Telemetry rates (`PMITR_to_rate`, `handle_rate_cmd`) -/

/-- The three telemetry channels: interval in seconds (0 = disabled)
and last-emission base time (`None` = restart the clock). -/
structure RateState where
  telemUpdr : Int
  magTupdr : Int
  imuUpdr : Int
  telemTime : Option Int
  magTime : Option Int
  imuTime : Option Int
deriving DecidableEq, Repr

/-- Boot defaults: all three rates 1 second, base times unset. -/
def bootRates : RateState := ⟨1, 1, 1, none, none, none⟩

/-- `PMITR_to_rate(theCmd)`: `(err_code, retval)`.  `none` embeds the
uncaught `IndexError` when no comma precedes the first `'*'`. -/
def PMITR_to_rate (theCmd : List Char) : Option (Int × Option Int) :=
  let bb0 := theCmd.takeWhile (· != '*')
  let cc := bb0.splitOn ','
  match cc.get? 1 with
  | none => none
  | some fld =>
    match pyIntDec fld with
    | none => some (-1, none)
    | some dd =>
      if -1 < dd ∧ dd < 61 then some (0, some dd) else some (-2, none)

/-- `handle_rate_cmd(theCmd)` of controller.py acting on the rate
state.  `none` embeds an uncaught exception; in particular when
`add_cksum` reports an error the final `return err_code,...` reads the
never-assigned local `err_code` and raises `UnboundLocalError`.
The magnetometer branches assign `g_mag_iupdr` without a `global`
declaration, so they create a function-local binding and the interval
`g_mag_tupdr` read by `send_telem` is left untouched — the model
mirrors that by not updating `magTupdr`. -/
def handle_rate_cmd (theCmd : List Char) (st : RateState) :
    Option ((Int × List Char × List Char) × RateState) :=
  match add_cksum theCmd with
  | none => none
  | some (errF, _) =>
    if errF then none
    else
      let sel := (theCmd.drop 6).take 2
      if sel = "T,".toList then
        match PMITR_to_rate theCmd with
        | none => none
        | some (0, some trate) =>
          some ((0, "RT".toList, []), { st with telemUpdr := trate, telemTime := none })
        | some (ec, _) => some ((ec, "RT".toList, []), st)
      else if sel = "M,".toList then
        match PMITR_to_rate theCmd with
        | none => none
        | some (0, some _trate) =>
          some ((0, "RM".toList, []), { st with magTime := none })
        | some (ec, _) => some ((ec, "RM".toList, []), st)
      else if sel = "I,".toList then
        match PMITR_to_rate theCmd with
        | none => none
        | some (0, some trate) =>
          some ((0, "RI".toList, []), { st with imuUpdr := trate, imuTime := none })
        | some (ec, _) => some ((ec, "RI".toList, []), st)
      else if sel = "A,".toList then
        let extra := params2string theCmd
        match PMITR_to_rate theCmd with
        | none => none
        | some (0, some trate) =>
          some ((0, "RA".toList, extra),
            { st with telemUpdr := trate, imuUpdr := trate,
                      telemTime := none, magTime := none, imuTime := none })
        | some (ec, _) => some ((ec, "RA".toList, extra), st)
      else if sel = "?*".toList then
        let extra := intDecChars st.telemUpdr ++ ',' ::
          (intDecChars st.magTupdr ++ ',' :: intDecChars st.imuUpdr)
        some ((0, "R?".toList, extra), st)
      else some ((-10, (theCmd.drop 5).take 2, []), st)

/-! ## Time-sync state machine -/

def TSRC_NOTSET : Int := 0
def TSRC_GNSS : Int := 1
def TSRC_EXT : Int := 2

def TEPOCH_NOTSET : Int := 0
def TEPOCH_PPS : Int := 1
def TEPOCH_NMEA : Int := 2
def TEPOCH_IMM : Int := 3

/-- The mutable time-sync globals: source/epoch codes, the NMEA
acquisition flag `g_nmea_time_f`, the saved fix time `g_rtc_save`, the
init flag, and the value last programmed into the real-time clock. -/
structure TimeSyncState where
  timeSource : Int
  timeEpoch : Int
  nmeaTimeF : Bool
  rtcSave : Int
  rtcInit : Bool
  clock : Int
deriving DecidableEq, Repr

/-- Boot-time values of the time-sync globals (`clock0` is whatever
the RTC holds, 1970-01-01 at reset). -/
def bootTimeSync (clock0 : Int) : TimeSyncState :=
  ⟨TSRC_GNSS, TEPOCH_NMEA, true, 0, false, clock0⟩

/-- `PMITTE_to_ts(theStr)`: `(err_code, theTs)`; all failures are
caught and encoded, none raise. -/
def PMITTE_to_ts (theStr : List Char) : Int × Int :=
  let theList := theStr.splitOn ','
  match theList.get? 1 with
  | none => (-1, -1)
  | some item1 =>
    let item0 := item1.takeWhile (· != '*')
    match pyIntDec item0 with
    | none => (-2, -1)
    | some ts => if ts < 0 then (-3, ts) else (0, ts)

/-- `handle_time_cmd(theCmd)` of controller.py acting on the time-sync
state.  `setTimeFromTs` is modeled as succeeding on the nonnegative
timestamps that reach it (its only failure is an out-of-range
`fromtimestamp`, never exercised by these claims).  `none` embeds a
raise inside `add_cksum` on the empty command. -/
def handle_time_cmd (theCmd : List Char) (st : TimeSyncState) :
    Option ((Int × List Char × List Char) × TimeSyncState) :=
  match add_cksum theCmd with
  | none => none
  | some (errF, _) =>
    if errF then some ((-1, "XXX".toList, []), st)
    else
      let p8 := theCmd.take 8
      if p8 = "$PMITTSG".toList ∨ p8 = "$PMITTEN".toList then
        let code := if p8 = "$PMITTSG".toList then "TSG".toList else "TEN".toList
        some ((0, code, []),
          { st with timeSource := TSRC_GNSS, timeEpoch := TEPOCH_NMEA, nmeaTimeF := true })
      else if p8 = "$PMITTEP".toList ∨ p8 = "$PMITTEI".toList then
        let isPps := p8 = "$PMITTEP".toList
        let code := if isPps then "TEP".toList else "TEI".toList
        let st1 := { st with timeSource := TSRC_EXT,
                             timeEpoch := if isPps then TEPOCH_PPS else TEPOCH_IMM }
        let extra := params2string theCmd
        let (ec, ts) := PMITTE_to_ts theCmd
        if ec ≠ 0 then some ((ec - 10, code, extra), st1)
        else some ((0, code, extra),
          { st1 with clock := ts, rtcInit := true, nmeaTimeF := false })
      else if p8 = "$PMITTSE".toList then
        some ((0, "TSE".toList, []),
          { st with timeSource := TSRC_EXT, timeEpoch := TEPOCH_NOTSET })
      else if p8 = "$PMITTP?".toList then
        let extra := intDecChars st.timeSource ++ ',' :: intDecChars st.timeEpoch
        some ((0, "TP?".toList, extra), st)
      else some ((-2, (theCmd.drop 5).take 3, []), st)

/-- The `$GNRMC` handling of `forward_nmea` (lines 1634-1645) together
with `NMEA_to_RTC` for a fix whose time and date fields parse:
`nowTime` is `time.time()` at reception, `fixTime` the timestamp
encoded in the fix.  The clock is set only when `get_NMEA_acq()` is
armed and the fix is the first one or 60 seconds have elapsed since the
previously saved fix time. -/
def applyGnrmcFix (st : TimeSyncState) (nowTime fixTime : Int) : TimeSyncState :=
  if st.nmeaTimeF ∧ (st.rtcSave = 0 ∨ nowTime - st.rtcSave ≥ 60) then
    { st with clock := fixTime, rtcSave := fixTime, rtcInit := true }
  else st

/-! ## IMU: conversion, calibration, tare, motion detection -/

/-- `twos_comp(val, bits)` of controller.py. -/
def twos_comp (val bits : Nat) : Int :=
  if val &&& (1 <<< (bits - 1)) ≠ 0 then (val : Int) - ((1 <<< bits : Nat) : Int)
  else (val : Int)

/-- A 3-axis sample in engineering units, embedded exactly over `ℚ`. -/
abbrev Axes := ℚ × ℚ × ℚ

def ACC_MAX : ℚ := 16 / 1000

def GYR_MAX : ℚ := 2 / 10

/-- The accelerometer byte-to-g conversion of `read_imu`: assemble
little-endian 16-bit words from a 6-byte FIFO entry, two's complement,
divide by 16393 counts per g.  Entries are 6 bytes; `getD` embeds the
in-range indexing. -/
def accBytesToG (hl : List Nat) : Axes :=
  let accX := hl.getD 0 0 + hl.getD 1 0 * 256
  let accY := hl.getD 2 0 + hl.getD 3 0 * 256
  let accZ := hl.getD 4 0 + hl.getD 5 0 * 256
  ((twos_comp accX 16 : ℚ) / 16393,
   (twos_comp accY 16 : ℚ) / 16393,
   (twos_comp accZ 16 : ℚ) / 16393)

/-- Calibration of one X/Y accelerometer axis in `read_imu`: applied
only when the absolute reading exceeds `ACC_MAX`. -/
def calAxisXY (ofs v : ℚ) : ℚ :=
  let calVal := |ofs|
  let absVal := |v|
  if absVal > ACC_MAX then
    let w := |absVal - calVal|
    if v < 0 ∧ w > 0 then -w else w
  else v

/-- Calibration of the accelerometer Z axis in `read_imu`: gravity is
removed before the comparison and restored afterwards. -/
def calAxisZ (ofs v : ℚ) : ℚ :=
  let calVal := |ofs| - 1
  let absVal := |v| - 1
  if absVal > ACC_MAX then
    let w := |absVal - calVal|
    let w2 := if v < 0 ∧ w > 0 then -w else w
    w2 + 1
  else v

/-- The accelerometer calibration block of `read_imu`. -/
def applyAccCal (ofs s : Axes) : Axes :=
  (calAxisXY ofs.1 s.1, calAxisXY ofs.2.1 s.2.1, calAxisZ ofs.2.2 s.2.2)

/-- `loop_imu` on the accelerometer FIFO path: convert (and, when
`use_cal` and the calibration-valid flag are set, calibrate) samples
0 .. cnt-1 of the FIFO data.  Faithful for `cnt ≥ 1` with at least
`cnt` entries supplied, which is how every call site uses it. -/
def loop_imu_acc (cnt : Nat) (useCal calAccF : Bool) (ofs : Axes)
    (dataListIn : List (List Nat)) : List Axes :=
  (dataListIn.take cnt).map (fun hl =>
    let g := accBytesToG hl
    if useCal ∧ calAccF then applyAccCal ofs g else g)

/-- The accelerometer branch of `calc_tare`: average `cnt` raw samples
per axis; a Z average above 2 g invalidates the calibration
(`g_cal_acc_f = False`) and keeps the previous offsets. -/
def calc_tare_acc (cnt : Nat) (dataListIn : List (List Nat))
    (prevOfs : Axes) : Bool × Axes :=
  let samples := loop_imu_acc cnt false false prevOfs dataListIn
  let xOfs := (samples.map (fun s => s.1)).sum / (cnt : ℚ)
  let yOfs := (samples.map (fun s => s.2.1)).sum / (cnt : ℚ)
  let zOfs := (samples.map (fun s => s.2.2)).sum / (cnt : ℚ)
  if zOfs > 2 then (false, prevOfs)
  else (true, (xOfs, yOfs, zOfs))

/-- One iteration of the accelerometer loop of `zero_crossings`
appends `ii+1` exactly when some axis exceeds threshold at sample `ii`
(absolute reading; gravity-adjusted on Z) and the *raw* next sample
confirms on the same axis (`retList[ii+1][0] > ACC_MAX` with no `abs`
on X and Y; `abs(retList[ii+1][2] - 1.0) > ACC_MAX` on Z). -/
def accHit (s t : Axes) : Bool :=
  decide ((|s.1| > ACC_MAX ∧ t.1 > ACC_MAX) ∨
          (|s.2.1| > ACC_MAX ∧ t.2.1 > ACC_MAX) ∨
          (|(|s.2.2|) - 1| > ACC_MAX ∧ |t.2.2 - 1| > ACC_MAX))

/-- Gyro variant of `accHit` (no gravity adjustment). -/
def gyrHit (s t : Axes) : Bool :=
  decide ((|s.1| > GYR_MAX ∧ t.1 > GYR_MAX) ∨
          (|s.2.1| > GYR_MAX ∧ t.2.1 > GYR_MAX) ∨
          (|s.2.2| > GYR_MAX ∧ t.2.2 > GYR_MAX))

/-- The detection loop of `zero_crossings` over consecutive sample
pairs; `ii` is the index of the first sample of the current pair.  At
most one index is appended per iteration (`thresh_f`), and the
`ii+1 < cnt` guard is the missing-second-element base case here. -/
def detectsAux (hit : Axes → Axes → Bool) : List Axes → Nat → List Nat
  | s :: t :: rest, ii =>
    (if hit s t then [ii + 1] else []) ++ detectsAux hit (t :: rest) (ii + 1)
  | _, _ => []

/-- `zero_crossings` accelerometer pass: the returned `detects` list.
The `auto_zero` snap-back assignments of the source write the loop
locals `accX_g`/`accY_g`/`accZ_g` after unmarshalling and never write
`retList`, so the emitted sample list is the input unchanged; only
`detects` carries information. -/
def zero_crossings_acc (samples : List Axes) : List Nat :=
  detectsAux accHit samples 0

/-- `zero_crossings` gyro pass. -/
def zero_crossings_gyr (samples : List Axes) : List Nat :=
  detectsAux gyrHit samples 0

/-- `do_acc(tare_f=True)` on the FIFO path with `loop_cnt=1`, from the
boot state (`g_accOfs = [0,0,0]`): tare from `tareData`, then one
motion-detection pass over `detData`; returns the detection list, the
values saved into `g_acc_x/y/z` for telemetry, and the sample list. -/
def do_acc_fifo_tare (tareCnt dataCnt : Nat)
    (tareData detData : List (List Nat)) : List Nat × Axes × List Axes :=
  let tare := calc_tare_acc tareCnt tareData (0, 0, 0)
  let samples := loop_imu_acc dataCnt true tare.1 tare.2 detData
  let detects := zero_crossings_acc samples
  let emitted :=
    match detects.getLast? with
    | some didx => samples.getD didx (0, 0, 0)
    | none => samples.getD (samples.length - 1) (0, 0, 0)
  (detects, emitted, samples)

/-- Spec-worded predicate: a sample whose per-axis deviation from
baseline (gravity-adjusted on Z) does not exceed the accelerometer
threshold. -/
def specAccQuiet (s : Axes) : Prop :=
  |s.1| ≤ ACC_MAX ∧ |s.2.1| ≤ ACC_MAX ∧ |s.2.2 - 1| ≤ ACC_MAX

instance (s : Axes) : Decidable (specAccQuiet s) := by
  unfold specAccQuiet; infer_instance

/-! ## Temperature FIFO rate selection (`odr2fifo_trate`) -/

def ODR_T_1_6Hz : Nat := 0x10

def ODR_T_12_5Hz : Nat := 0x20

def ODR_T_52Hz : Nat := 0x30

def FIFO_CONT_MODE : Nat := 0x6

/-- `odr2fifo_trate(theODR)` of controller.py: the value written to
FIFO_CTRL4. -/
def odr2fifo_trate (theODR : ℚ) : Nat :=
  let useTR :=
    if theODR < 200 then ODR_T_1_6Hz
    else if theODR < 2000 then ODR_T_12_5Hz
    else ODR_T_52Hz
  FIFO_CONT_MODE ||| useTR

/-- Modelled from the spec: "the temperature channel's FIFO rate is
chosen from one of three discrete settings by nearest-rate-below match
against the combined accel/gyro rate" — the largest of
{1.6 Hz, 12.5 Hz, 52 Hz} not exceeding the combined rate. -/
def specNearestTRateBelow (odr : ℚ) : Option ℚ :=
  if 52 ≤ odr then some 52
  else if 25 / 2 ≤ odr then some (25 / 2)
  else if 8 / 5 ≤ odr then some (8 / 5)
  else none

/-- Register code of each discrete temperature FIFO rate. -/
def tRateCode (r : ℚ) : Option Nat :=
  if r = 8 / 5 then some ODR_T_1_6Hz
  else if r = 25 / 2 then some ODR_T_12_5Hz
  else if r = 52 then some ODR_T_52Hz
  else none

/-! ## Helper lemmas -/

theorem dropWhile_eq_of_head {p : Char → Bool} {l : List Char}
    (h : ∀ c, l.head? = some c → p c = false) : l.dropWhile p = l := by
  cases l with
  | nil => rfl
  | cons a t =>
    rw [List.dropWhile_cons, h a rfl]
    simp

theorem pyStrip_dollar_cons (M : List Char)
    (hh : ∀ c, M.head? = some c → c ≠ '$' ∧ c ≠ '\n')
    (hl : ∀ c, M.getLast? = some c → c ≠ '$' ∧ c ≠ '\n') :
    pyStrip ['$', '\n'] ('$' :: M) = M := by
  have h1 : List.dropWhile (fun c => decide (c ∈ ['$', '\n'])) ('$' :: M) =
      List.dropWhile (fun c => decide (c ∈ ['$', '\n'])) M := by
    simp [List.dropWhile_cons]
  have h2 : List.dropWhile (fun c => decide (c ∈ ['$', '\n'])) M = M :=
    dropWhile_eq_of_head (fun c hc => by simpa using hh c hc)
  have h3 : List.dropWhile (fun c => decide (c ∈ ['$', '\n'])) M.reverse =
      M.reverse :=
    dropWhile_eq_of_head (fun c hc => by
      simpa using hl c (by rwa [List.head?_reverse] at hc))
  unfold pyStrip
  rw [h1, h2, h3, List.reverse_reverse]

theorem takeWhile_star (b L : List Char) (h : '*' ∉ b) :
    (b ++ '*' :: L).takeWhile (· != '*') = b := by
  induction b with
  | nil => simp [List.takeWhile_cons]
  | cons a t ih =>
    have ha : a ≠ '*' := fun e => h (e ▸ List.mem_cons_self a t)
    have ht : '*' ∉ t := fun hm => h (List.mem_cons_of_mem _ hm)
    simp only [List.cons_append, List.takeWhile_cons]
    simp [ha, ih ht]

theorem dropWhile_star (b L : List Char) (h : '*' ∉ b) :
    (b ++ '*' :: L).dropWhile (· != '*') = '*' :: L := by
  induction b with
  | nil => simp [List.dropWhile_cons]
  | cons a t ih =>
    have ha : a ≠ '*' := fun e => h (e ▸ List.mem_cons_self a t)
    have ht : '*' ∉ t := fun hm => h (List.mem_cons_of_mem _ hm)
    simp only [List.cons_append, List.dropWhile_cons]
    simp [ha, ih ht]

theorem foldl_xor_lt (b : List Char) :
    ∀ acc, acc < 128 → (∀ c ∈ b, c.toNat < 128) →
      b.foldl (fun a c => a ^^^ c.toNat) acc < 128 := by
  induction b with
  | nil => intro acc h _; simpa using h
  | cons c t ih =>
    intro acc h hall
    refine ih (acc ^^^ c.toNat) ?_ (fun d hd => hall d (List.mem_cons_of_mem _ hd))
    have h1 : c.toNat < 128 := hall c (List.mem_cons_self _ _)
    have h2 : acc ^^^ c.toNat < 2 ^ 7 :=
      Nat.xor_lt_two_pow (by simpa using h) (by simpa using h1)
    simpa using h2

theorem xorSum_lt_128 (b : List Char) (h : ∀ c ∈ b, c.toNat < 128) :
    xorSum b < 128 :=
  foldl_xor_lt b 0 (by omega) h

set_option maxRecDepth 4000 in
theorem hexPad2_facts : ∀ n : Nat, n < 256 →
    (hexPad2Upper n).length = 2 ∧
    pyIntHex (hexPad2Upper n) = some (n : Int) ∧
    ((hexPad2Upper n).all fun c => (hexVal c).isSome) = true := by decide

theorem not_mem_of_all_hex {L : List Char}
    (h : (L.all fun c => (hexVal c).isSome) = true) {c : Char}
    (hc : hexVal c = none) : c ∉ L := by
  intro hmem
  have := List.all_eq_true.mp h c hmem
  rw [hc] at this
  simp at this

/-! ## Claim C10: totality of `eval_packet` -/

/-- C10: `eval_packet` returns an `(err_code, declared, computed)`
triple without raising for every non-empty input string, but on the
empty string it indexes the first character and raises. -/
theorem evalPacket_total :
    (∀ g : Bool, eval_packet [] g = none) ∧
    ∀ (c : Char) (rest : List Char) (g : Bool),
      (eval_packet (c :: rest) g).isSome = true := by
  refine ⟨fun g => rfl, fun c rest g => ?_⟩
  unfold eval_packet
  repeat' split
  all_goals simp_all

/-! ## Claim C5: error classification of `eval_packet` -/

/-- C5 counterexample: the sentence `$*0` has a declared checksum field
of a single hex digit — not two hex digits — yet validation succeeds
with error code 0 instead of failing with the not-hex code −3. -/
theorem evalPacket_one_digit_accepted :
    eval_packet ['$', '*', '0'] false = some ⟨0, some ['0'], 0⟩ ∧
    isTwoHexDigits ['0'] = false := by decide

/-- C5 amended: on a non-empty input, `eval_packet` classifies in this
order: NotASentence (−2) when the first character is not `'$'`;
FramingMismatch (−1) when the `'$'` and `'*'` counts disagree;
ChecksumNotHex (−3) when the declared field fails hexadecimal integer
parsing (two digits are not required); ChecksumMismatch (−4) when the
parsed value differs from the computed XOR; success (0) otherwise. -/
theorem evalPacket_classification (c0 : Char) (rest : List Char) :
    (c0 ≠ '$' → eval_packet (c0 :: rest) false = some ⟨-2, none, 0⟩) ∧
    (c0 = '$' → (c0 :: rest).count '$' ≠ (c0 :: rest).count '*' →
      eval_packet (c0 :: rest) false = some ⟨-1, none, 0⟩) ∧
    (c0 = '$' → (c0 :: rest).count '$' = (c0 :: rest).count '*' →
      pyIntHex (sentenceCkField (c0 :: rest)) = none →
      eval_packet (c0 :: rest) false =
        some ⟨-3, some (sentenceCkField (c0 :: rest)), 0⟩) ∧
    (∀ v : Int, c0 = '$' → (c0 :: rest).count '$' = (c0 :: rest).count '*' →
      pyIntHex (sentenceCkField (c0 :: rest)) = some v →
      v ≠ (xorSum (sentenceBody (c0 :: rest)) : Int) →
      eval_packet (c0 :: rest) false =
        some ⟨-4, some (sentenceCkField (c0 :: rest)),
              xorSum (sentenceBody (c0 :: rest))⟩) ∧
    (∀ v : Int, c0 = '$' → (c0 :: rest).count '$' = (c0 :: rest).count '*' →
      pyIntHex (sentenceCkField (c0 :: rest)) = some v →
      v = (xorSum (sentenceBody (c0 :: rest)) : Int) →
      eval_packet (c0 :: rest) false =
        some ⟨0, some (sentenceCkField (c0 :: rest)),
              xorSum (sentenceBody (c0 :: rest))⟩) := by
  refine ⟨?_, ?_, ?_, ?_, ?_⟩
  · intro h
    simp only [eval_packet]
    rw [if_neg h]
  · intro h hc
    subst h
    simp only [eval_packet]
    rw [if_pos trivial, if_pos hc]
  · intro h hc hp
    subst h
    simp only [eval_packet]
    rw [if_pos trivial, if_neg (fun hn => hn hc), if_neg Bool.false_ne_true, hp]
  · intro v h hc hp hv
    subst h
    simp only [eval_packet]
    rw [if_pos trivial, if_neg (fun hn => hn hc), if_neg Bool.false_ne_true, hp]
    dsimp only
    rw [if_neg hv]
  · intro v h hc hp hv
    subst h
    simp only [eval_packet]
    rw [if_pos trivial, if_neg (fun hn => hn hc), if_neg Bool.false_ne_true, hp]
    dsimp only
    rw [if_pos hv]

/-- C5 witness: the classification applied to the valid sentence
`$GPXYZ*4C`. -/
theorem evalPacket_classification_witness :
    eval_packet ('$' :: "GPXYZ*4C".toList) false =
      some ⟨0, some (sentenceCkField ('$' :: "GPXYZ*4C".toList)),
            xorSum (sentenceBody ('$' :: "GPXYZ*4C".toList))⟩ :=
  (evalPacket_classification '$' "GPXYZ*4C".toList).2.2.2.2 76 rfl (by decide)
    (by decide) (by decide)

/-! ## Claim C6: checksum round trip -/

theorem evalPacket_gen_ok (rest : List Char)
    (hc : ('$' :: rest).count '$' = ('$' :: rest).count '*') :
    eval_packet ('$' :: rest) true =
      some ⟨0, some (sentenceCkField ('$' :: rest)),
            xorSum (sentenceBody ('$' :: rest))⟩ := by
  simp only [eval_packet]
  rw [if_pos (by trivial), if_neg (fun hn => hn hc), if_pos (by trivial)]

/-- C6 counterexample: the body `"\nA"` contains no `'$'` and no `'*'`,
yet building a sentence from it appends `"41"` — the XOR of `"A"`
alone, because `strip("$\n")` also eats the leading newline — and not
`"4B"`, the two-digit rendering of the fold-XOR of the body's own
ASCII codes. -/
theorem addCksum_leading_newline_cex :
    add_cksum ('$' :: '\n' :: 'A' :: ['*']) =
      some (false, '$' :: '\n' :: 'A' :: '*' :: ['4', '1']) ∧
    hexPad2Upper (xorSum ['\n', 'A']) = ['4', 'B'] ∧
    (['4', '1'] : List Char) ≠ ['4', 'B'] := by
  refine ⟨rfl, rfl, by decide⟩

/-- C6 amended: for every ASCII body `b` with no `'$'` or `'*'`
characters and no leading newline, building appends the fold-XOR
checksum of `b` as two uppercase zero-padded hex digits, and validating
the built sentence succeeds with declared = computed checksum. -/
theorem addCksum_roundtrip (b : List Char)
    (hascii : ∀ c ∈ b, c.toNat < 128)
    (hdol : '$' ∉ b) (hstar : '*' ∉ b) (hnl : b.head? ≠ some '\n') :
    add_cksum ('$' :: b ++ ['*']) =
      some (false, '$' :: b ++ '*' :: hexPad2Upper (xorSum b)) ∧
    (hexPad2Upper (xorSum b)).length = 2 ∧
    pyIntHex (hexPad2Upper (xorSum b)) = some (xorSum b : Int) ∧
    eval_packet ('$' :: b ++ '*' :: hexPad2Upper (xorSum b)) false =
      some ⟨0, some (hexPad2Upper (xorSum b)), xorSum b⟩ := by
  have hx : xorSum b < 256 := lt_trans (xorSum_lt_128 b hascii) (by norm_num)
  obtain ⟨hlen, hparse, hall⟩ := hexPad2_facts (xorSum b) hx
  have hhead : ∀ (L : List Char) (c : Char),
      (b ++ '*' :: L).head? = some c → c ≠ '$' ∧ c ≠ '\n' := by
    intro L c hc
    cases b with
    | nil =>
      rw [List.nil_append, List.head?_cons] at hc
      cases hc
      exact ⟨by decide, by decide⟩
    | cons a t =>
      rw [List.cons_append, List.head?_cons] at hc
      have e : a = c := by injection hc
      subst e
      refine ⟨fun e2 => hdol (e2 ▸ List.mem_cons_self a t), fun e2 => ?_⟩
      exact hnl (by rw [List.head?_cons, e2])
  -- the generate pass on `$<b>*`
  have hstrip1 : pyStrip ['$', '\n'] ('$' :: (b ++ ['*'])) = b ++ ['*'] := by
    refine pyStrip_dollar_cons _ (fun c hc => hhead [] c hc) (fun c hc => ?_)
    rw [List.getLast?_concat] at hc
    cases hc
    exact ⟨by decide, by decide⟩
  have hbody1 : sentenceBody ('$' :: b ++ ['*']) = b := by
    unfold sentenceBody
    rw [List.cons_append, hstrip1]
    exact takeWhile_star b [] hstar
  have hck1 : sentenceCkField ('$' :: b ++ ['*']) = [] := by
    unfold sentenceCkField
    rw [List.cons_append, hstrip1, dropWhile_star b [] hstar]
    rfl
  have cb1 : b.count '$' = 0 := List.count_eq_zero.mpr hdol
  have cb2 : b.count '*' = 0 := List.count_eq_zero.mpr hstar
  have hcnt1 : ('$' :: (b ++ ['*'])).count '$' =
      ('$' :: (b ++ ['*'])).count '*' := by
    simp [List.count_cons, List.count_append, cb1, cb2]
  have hgen := evalPacket_gen_ok (b ++ ['*']) hcnt1
  rw [show ('$' :: (b ++ ['*'])) = ('$' :: b ++ ['*']) from rfl, hbody1, hck1]
    at hgen
  have hadd : add_cksum ('$' :: b ++ ['*']) =
      some (false, '$' :: b ++ '*' :: hexPad2Upper (xorSum b)) := by
    unfold add_cksum
    rw [hgen]
    dsimp only
    rw [if_neg (fun h => h rfl)]
    simp
  -- the validation pass on the built sentence
  have hH1 : '$' ∉ hexPad2Upper (xorSum b) :=
    not_mem_of_all_hex hall (by decide)
  have hH2 : '*' ∉ hexPad2Upper (xorSum b) :=
    not_mem_of_all_hex hall (by decide)
  obtain ⟨d1, d0, hHd⟩ := List.length_eq_two.mp hlen
  have hd0mem : d0 ∈ hexPad2Upper (xorSum b) := by rw [hHd]; simp
  have hd0hex : (hexVal d0).isSome = true := List.all_eq_true.mp hall d0 hd0mem
  have hd0 : d0 ≠ '$' ∧ d0 ≠ '\n' := by
    constructor
    · intro e
      subst e
      rw [show hexVal '$' = none from by decide] at hd0hex
      simp at hd0hex
    · intro e
      subst e
      rw [show hexVal '\n' = none from by decide] at hd0hex
      simp at hd0hex
  have hstrip2 : pyStrip ['$', '\n']
      ('$' :: (b ++ '*' :: hexPad2Upper (xorSum b))) =
      b ++ '*' :: hexPad2Upper (xorSum b) := by
    refine pyStrip_dollar_cons _ (fun c hc => hhead _ c hc) (fun c hc => ?_)
    rw [hHd, show b ++ '*' :: [d1, d0] = (b ++ ['*', d1]) ++ [d0] from by simp,
      List.getLast?_concat] at hc
    cases hc
    exact hd0
  have hbody2 : sentenceBody ('$' :: b ++ '*' :: hexPad2Upper (xorSum b)) =
      b := by
    unfold sentenceBody
    rw [List.cons_append, hstrip2]
    exact takeWhile_star b _ hstar
  have hck2 : sentenceCkField ('$' :: b ++ '*' :: hexPad2Upper (xorSum b)) =
      hexPad2Upper (xorSum b) := by
    unfold sentenceCkField
    rw [List.cons_append, hstrip2, dropWhile_star b _ hstar]
    rfl
  have chx1 : (hexPad2Upper (xorSum b)).count '$' = 0 :=
    List.count_eq_zero.mpr hH1
  have chx2 : (hexPad2Upper (xorSum b)).count '*' = 0 :=
    List.count_eq_zero.mpr hH2
  have hcnt2 : ('$' :: (b ++ '*' :: hexPad2Upper (xorSum b))).count '$' =
      ('$' :: (b ++ '*' :: hexPad2Upper (xorSum b))).count '*' := by
    simp [List.count_cons, List.count_append, cb1, cb2, chx1, chx2]
  have hval := (evalPacket_classification '$'
      (b ++ '*' :: hexPad2Upper (xorSum b))).2.2.2.2 (xorSum b : Int) rfl hcnt2
      (by rw [show ('$' :: (b ++ '*' :: hexPad2Upper (xorSum b))) =
          ('$' :: b ++ '*' :: hexPad2Upper (xorSum b)) from rfl, hck2]
          exact hparse)
      (by rw [show ('$' :: (b ++ '*' :: hexPad2Upper (xorSum b))) =
          ('$' :: b ++ '*' :: hexPad2Upper (xorSum b)) from rfl, hbody2])
  rw [show ('$' :: (b ++ '*' :: hexPad2Upper (xorSum b))) =
      ('$' :: b ++ '*' :: hexPad2Upper (xorSum b)) from rfl, hbody2, hck2]
    at hval
  exact ⟨hadd, hlen, hparse, hval⟩

/-- C6 witness: the round trip applied to the concrete body `GPXYZ`. -/
theorem addCksum_roundtrip_witness :
    add_cksum ('$' :: "GPXYZ".toList ++ ['*']) =
      some (false, '$' :: "GPXYZ".toList ++ '*' ::
        hexPad2Upper (xorSum "GPXYZ".toList)) :=
  (addCksum_roundtrip "GPXYZ".toList (by decide) (by decide) (by decide)
    (by decide)).1

/-! ## Claim C4: daisy-chain byte construction -/

theorem maxSpiGroups_eq_filterMap (addrOfs daisy daiSel : Nat) (copyF : Bool) :
    ∀ (tokens : List (List Char)) (ii : Nat),
      maxSpiGroups addrOfs daisy daiSel copyF tokens ii =
        (List.enumFrom ii tokens).filterMap fun p =>
          (tokBit p.2).map fun ival =>
            grpOf daisy daiSel copyF [p.1 + addrOfs, ival] := by
  intro tokens
  induction tokens with
  | nil => intro ii; rfl
  | cons t rest ih =>
    intro ii
    rw [show maxSpiGroups addrOfs daisy daiSel copyF (t :: rest) ii =
        (match tokBit t with
         | none => maxSpiGroups addrOfs daisy daiSel copyF rest (ii + 1)
         | some ival => grpOf daisy daiSel copyF [ii + addrOfs, ival] ::
             maxSpiGroups addrOfs daisy daiSel copyF rest (ii + 1)) from rfl,
      List.enumFrom_cons]
    cases ht : tokBit t with
    | none => simp [List.filterMap_cons, ht, ih (ii + 1)]
    | some ival => simp [List.filterMap_cons, ht, ih (ii + 1)]

theorem grpOf_eq_groupAt (daisy daiSel addr ival : Nat)
    (hd : daisy = 1 ∨ daisy = 2 ∨ daisy = 4) (h1 : 1 ≤ daiSel)
    (h2 : daiSel ≤ daisy) :
    grpOf daisy daiSel false [addr, ival] = groupAt daisy daiSel addr ival := by
  rcases hd with rfl | rfl | rfl
  · have he : daiSel = 1 := by omega
    subst he
    simp [grpOf, groupAt, theDummy]
  · interval_cases daiSel <;>
      simp [grpOf, groupAt, theDummy, List.replicate_succ]
  · interval_cases daiSel <;>
      simp [grpOf, groupAt, theDummy, List.replicate_succ]

theorem grpOf_eq_bcast (daisy daiSel addr ival : Nat)
    (hd : daisy = 1 ∨ daisy = 2 ∨ daisy = 4) :
    grpOf daisy daiSel true [addr, ival] = bcastGroup daisy addr ival := by
  rcases hd with rfl | rfl | rfl <;>
    simp [grpOf, bcastGroup, List.replicate_succ]

theorem filterMap_tokBit_length (g : Nat → Nat → List Nat) :
    ∀ (tokens : List (List Char)) (ii : Nat),
      ((List.enumFrom ii tokens).filterMap fun p =>
        (tokBit p.2).map fun ival => g p.1 ival).length =
      (tokens.filter fun t => (tokBit t).isSome).length := by
  intro tokens
  induction tokens with
  | nil => intro ii; rfl
  | cons t rest ih =>
    intro ii
    rw [List.enumFrom_cons]
    cases ht : tokBit t with
    | none => simp [List.filterMap_cons, List.filter_cons, ht, ih (ii + 1)]
    | some ival => simp [List.filterMap_cons, List.filter_cons, ht, ih (ii + 1)]

/-- C4: under the validity guards (chain size 1, 2 or 4; selector in
range; bit count plus offset at most 10), `maxStr2SpiList` emits one
group per `'0'`/`'1'` token: for chain size 1 the group is the single
(address, value) pair; otherwise the target pair sits `daisy - daiSel`
slots into the group — so the last chip of the chain receives the first
clocked pair — with the no-op pair `[32, 0]` in every other slot; in
broadcast (copy) mode the identical pair fills every slot; and the
number of emitted groups equals the number of requested 0/1 bits. -/
theorem maxStr2SpiList_spec (strIn : List Char) (addrOfs daisy daiSel : Nat)
    (hdaisy : daisy = 1 ∨ daisy = 2 ∨ daisy = 4)
    (hsel1 : 1 ≤ daiSel) (hsel2 : daiSel ≤ daisy)
    (hlen : (strIn.splitOn ',').length + addrOfs ≤ 10) :
    maxStr2SpiList strIn addrOfs daisy daiSel false =
      (false, (strIn.splitOn ',').enum.filterMap fun p =>
        (tokBit p.2).map fun ival =>
          groupAt daisy daiSel (p.1 + addrOfs) ival) ∧
    maxStr2SpiList strIn addrOfs daisy daiSel true =
      (false, (strIn.splitOn ',').enum.filterMap fun p =>
        (tokBit p.2).map fun ival => bcastGroup daisy (p.1 + addrOfs) ival) ∧
    ((maxStr2SpiList strIn addrOfs daisy daiSel false).2).length =
      ((strIn.splitOn ',').filter fun t => (tokBit t).isSome).length := by
  have hguard1 : ¬((strIn.splitOn ',').length + addrOfs > 10) := by omega
  have hguard3 : (daisy = 1 ∧ daiSel = 1) ∨
      (daisy = 2 ∧ 1 ≤ daiSel ∧ daiSel ≤ 2) ∨
      (daisy = 4 ∧ 1 ≤ daiSel ∧ daiSel ≤ 4) := by
    rcases hdaisy with rfl | rfl | rfl
    · exact Or.inl ⟨rfl, by omega⟩
    · exact Or.inr (Or.inl ⟨rfl, hsel1, hsel2⟩)
    · exact Or.inr (Or.inr ⟨rfl, hsel1, hsel2⟩)
  have hexp : ∀ c : Bool, maxStr2SpiList strIn addrOfs daisy daiSel c =
      (false, maxSpiGroups addrOfs daisy daiSel c (strIn.splitOn ',') 0) := by
    intro c
    unfold maxStr2SpiList
    rw [if_neg hguard1, if_neg (not_not_intro hdaisy),
      if_neg (not_not_intro hguard3)]
  have hmap1 : ∀ p : Nat × List Char,
      ((tokBit p.2).map fun ival =>
        grpOf daisy daiSel false [p.1 + addrOfs, ival]) =
      ((tokBit p.2).map fun ival =>
        groupAt daisy daiSel (p.1 + addrOfs) ival) := by
    intro p
    cases tokBit p.2 with
    | none => rfl
    | some ival =>
      simp [grpOf_eq_groupAt _ _ _ _ hdaisy hsel1 hsel2]
  have hmap2 : ∀ p : Nat × List Char,
      ((tokBit p.2).map fun ival =>
        grpOf daisy daiSel true [p.1 + addrOfs, ival]) =
      ((tokBit p.2).map fun ival => bcastGroup daisy (p.1 + addrOfs) ival) := by
    intro p
    cases tokBit p.2 with
    | none => rfl
    | some ival => simp [grpOf_eq_bcast _ _ _ _ hdaisy]
  refine ⟨?_, ?_, ?_⟩
  · rw [hexp false, maxSpiGroups_eq_filterMap]
    simp only [hmap1]
    rfl
  · rw [hexp true, maxSpiGroups_eq_filterMap]
    simp only [hmap2]
    rfl
  · rw [hexp false]
    dsimp only
    rw [maxSpiGroups_eq_filterMap]
    exact filterMap_tokBit_length
      (fun a ival => grpOf daisy daiSel false [a + addrOfs, ival]) _ 0

/-- C4 witness: chain of 4, targeting chip 3, bits `0,x,1` from offset
2: tokens 0 and 2 yield one group each, the pair one slot into the
burst. -/
theorem maxStr2SpiList_spec_witness :
    maxStr2SpiList "0,x,1".toList 2 4 3 false =
      (false, [groupAt 4 3 2 0, groupAt 4 3 4 1]) := by
  rw [(maxStr2SpiList_spec "0,x,1".toList 2 4 3 (by omega) (by omega) (by omega)
    (by decide)).1]
  rfl

/-! ## Claim C2: rate-set commands -/

/-- C2: a successfully acknowledged magnetometer rate-set (and the
magnetometer part of the all-channels variant) does not update the
magnetometer telemetry interval: the handler assigns an undeclared
local `g_mag_iupdr` instead of the `g_mag_tupdr` interval it declares
global, so `$PMITRM,5*06` and `$PMITRA,7*08` return success while the
interval stays at its previous value 1. -/
theorem handleRateCmd_mag_interval_stale :
    handle_rate_cmd "$PMITRM,5*06".toList bootRates =
      some ((0, ['R', 'M'], []), ⟨1, 1, 1, none, none, none⟩) ∧
    handle_rate_cmd "$PMITRA,7*08".toList bootRates =
      some ((0, ['R', 'A'], ['7']), ⟨7, 1, 7, none, none, none⟩) ∧
    (5 : Int) ≠ 1 ∧ (7 : Int) ≠ 1 := by decide

/-! ## Claim C3: satellite time-fix gating -/

/-- C3 counterexample: from the boot state, the source=external command
`$PMITTSE*42` leaves the NMEA-acquisition flag armed, so a following
satellite fix still updates the clock (0 → 42) although the time source
is external, not satellite. -/
theorem gnrmcFix_external_source_cex :
    handle_time_cmd "$PMITTSE*42".toList (bootTimeSync 0) =
      some ((0, ['T', 'S', 'E'], []),
        ⟨TSRC_EXT, TEPOCH_NOTSET, true, 0, false, 0⟩) ∧
    TSRC_EXT ≠ TSRC_GNSS ∧
    applyGnrmcFix ⟨TSRC_EXT, TEPOCH_NOTSET, true, 0, false, 0⟩ 100 42 =
      ⟨TSRC_EXT, TEPOCH_NOTSET, true, 42, true, 42⟩ ∧
    (42 : Int) ≠ 0 := by decide

/-- C3 amended: a satellite fix updates the clock exactly when the
NMEA-acquisition flag is armed and either no satellite-driven update
has been saved yet or 60 seconds have elapsed; the flag — not the
(source, epoch) pair — is the gate, and a bare source=external command
leaves it unchanged. -/
theorem gnrmcFix_gated_by_acq_flag (st : TimeSyncState) (nowTime fixTime : Int) :
    (applyGnrmcFix st nowTime fixTime ≠ st →
      st.nmeaTimeF = true ∧ (st.rtcSave = 0 ∨ nowTime - st.rtcSave ≥ 60)) ∧
    (st.nmeaTimeF = true → (st.rtcSave = 0 ∨ nowTime - st.rtcSave ≥ 60) →
      (applyGnrmcFix st nowTime fixTime).clock = fixTime ∧
      (applyGnrmcFix st nowTime fixTime).rtcSave = fixTime) ∧
    (st.nmeaTimeF = false → applyGnrmcFix st nowTime fixTime = st) ∧
    (∀ res st2, handle_time_cmd "$PMITTSE*42".toList st = some (res, st2) →
      st2.nmeaTimeF = st.nmeaTimeF ∧ st2.timeSource = TSRC_EXT ∧
      st2.timeEpoch = TEPOCH_NOTSET) := by
  refine ⟨?_, ?_, ?_, ?_⟩
  · intro hne
    unfold applyGnrmcFix at hne
    by_cases h : st.nmeaTimeF ∧ (st.rtcSave = 0 ∨ nowTime - st.rtcSave ≥ 60)
    · exact ⟨h.1, h.2⟩
    · rw [if_neg h] at hne; exact absurd rfl hne
  · intro h1 h2
    unfold applyGnrmcFix
    rw [if_pos ⟨h1, h2⟩]
    exact ⟨rfl, rfl⟩
  · intro h1
    unfold applyGnrmcFix
    rw [if_neg (by simp [h1])]
  · intro res st2 h
    have e : handle_time_cmd "$PMITTSE*42".toList st =
        some ((0, ['T', 'S', 'E'], []),
          { st with timeSource := TSRC_EXT, timeEpoch := TEPOCH_NOTSET }) := rfl
    rw [e] at h
    obtain ⟨-, h2⟩ := Prod.mk.injEq .. ▸ Option.some.injEq _ _ ▸ h
    cases h2
    exact ⟨rfl, rfl, rfl⟩

/-- C3 witness: the amended gate applied in the armed boot state. -/
theorem gnrmcFix_gated_by_acq_flag_witness :
    (applyGnrmcFix (bootTimeSync 0) 100 42).clock = 42 :=
  ((gnrmcFix_gated_by_acq_flag (bootTimeSync 0) 100 42).2.1 rfl (Or.inl rfl)).1

/-! ## Claim C8: port-expander bit set -/

/-- C8: a MAIN-chip bit-set command whose bit parameters are all in
{0, 1, x} — accepted by the parameter validation (`maxList2str`) and
advertised in the handler's own docstring — makes `updateShadowMax`
call `int('x')`, which raises `ValueError` after the preceding
positions were already stored: `$PMITMAX,4,1,x*05` mutates MAIN
position 4 and then raises instead of returning a result. -/
theorem handleMaxCmd_x_bit_raises :
    handle_max_cmd "$PMITMAX,4,1,x*05".toList "MAX,".toList bootShadows =
      .error { bootShadows with misc := [1, 1, 1, 1, 1, 0, 0, 1, 1, 0] } ∧
    maxList2str [['1'], ['x']] = (false, ['1', ',', 'x']) ∧
    [1, 1, 1, 1, 1, 0, 0, 1, 1, 0] ≠ MAX_MISC_DEF :=
  ⟨rfl, rfl, by decide⟩

/-! ## Claim C9: temperature FIFO rate selection -/

/-- C9 counterexample: at the configured combined rate 104 Hz, the
nearest temperature rate at or below it is 52 Hz, but `odr2fifo_trate`
writes the 1.6 Hz code: the selection is by fixed thresholds at 200 and
2000 Hz, not by nearest-rate-below match. -/
theorem odr2fifoTrate_nearest_below_cex :
    specNearestTRateBelow 104 = some 52 ∧
    tRateCode 52 = some ODR_T_52Hz ∧
    odr2fifo_trate 104 = FIFO_CONT_MODE ||| ODR_T_1_6Hz ∧
    FIFO_CONT_MODE ||| ODR_T_1_6Hz ≠ FIFO_CONT_MODE ||| ODR_T_52Hz := by
  refine ⟨?_, ?_, ?_, by decide⟩
  · unfold specNearestTRateBelow
    norm_num
  · unfold tRateCode
    norm_num [ODR_T_52Hz]
  · unfold odr2fifo_trate
    norm_num

/-- C9 amended: the temperature FIFO rate written to FIFO_CTRL4 is one
of the three discrete settings, selected by fixed thresholds on the
combined accel/gyro rate: 1.6 Hz below 200 Hz, 12.5 Hz below 2000 Hz,
52 Hz otherwise, with the continuous-mode bits preserved in the low
nibble. -/
theorem odr2fifoTrate_thresholds (odr : ℚ) :
    odr2fifo_trate odr =
      FIFO_CONT_MODE |||
        (if odr < 200 then ODR_T_1_6Hz
         else if odr < 2000 then ODR_T_12_5Hz
         else ODR_T_52Hz) ∧
    odr2fifo_trate odr % 16 = FIFO_CONT_MODE ∧
    (odr2fifo_trate odr / 16 = 1 ∨ odr2fifo_trate odr / 16 = 2 ∨
      odr2fifo_trate odr / 16 = 3) := by
  refine ⟨rfl, ?_, ?_⟩ <;> unfold odr2fifo_trate <;> split_ifs <;> decide

/-! ## Claim C7: two-sample confirmation -/

theorem detectsAux_mem (hit : Axes → Axes → Bool) :
    ∀ (l : List Axes) (ii d : Nat), d ∈ detectsAux hit l ii →
      ii < d ∧ d - ii + 1 ≤ l.length ∧
      hit (l.getD (d - ii - 1) (0, 0, 0)) (l.getD (d - ii) (0, 0, 0)) = true := by
  intro l
  induction l with
  | nil => intro ii d h; simp [detectsAux] at h
  | cons s rest ih =>
    intro ii d h
    cases rest with
    | nil => simp [detectsAux] at h
    | cons t rest2 =>
      rw [show detectsAux hit (s :: t :: rest2) ii =
          (if hit s t then [ii + 1] else []) ++
            detectsAux hit (t :: rest2) (ii + 1) from rfl,
        List.mem_append] at h
      cases h with
      | inl h1 =>
        cases hhit : hit s t with
        | false => rw [if_neg (by simp [hhit])] at h1; simp at h1
        | true =>
          rw [if_pos (by simp [hhit])] at h1
          have hd : d = ii + 1 := by simpa using h1
          subst hd
          refine ⟨by omega, by simp only [List.length_cons]; omega, ?_⟩
          have e1 : ii + 1 - ii - 1 = 0 := by omega
          have e2 : ii + 1 - ii = 1 := by omega
          rw [e1, e2, List.getD_cons_succ, List.getD_cons_zero,
            List.getD_cons_zero]
          exact hhit
      | inr h2 =>
        obtain ⟨ha, hb, hc⟩ := ih (ii + 1) d h2
        refine ⟨by omega, by simp at hb ⊢; omega, ?_⟩
        have e1 : d - ii - 1 = (d - (ii + 1) - 1) + 1 := by omega
        have e2 : d - ii = (d - (ii + 1)) + 1 := by omega
        rw [e1, e2, List.getD_cons_succ, List.getD_cons_succ]
        exact hc

theorem detectsAux_eq_nil (hit : Axes → Axes → Bool) :
    ∀ (l : List Axes) (ii : Nat),
      (∀ m, m + 1 < l.length →
        hit (l.getD m (0, 0, 0)) (l.getD (m + 1) (0, 0, 0)) = false) →
      detectsAux hit l ii = [] := by
  intro l
  induction l with
  | nil => intro ii _; rfl
  | cons s rest ih =>
    intro ii h
    cases rest with
    | nil => rfl
    | cons t rest2 =>
      have h0 : hit s t = false := by
        have := h 0 (by simp)
        simpa using this
      have htail : ∀ m, m + 1 < (t :: rest2).length →
          hit ((t :: rest2).getD m (0, 0, 0))
            ((t :: rest2).getD (m + 1) (0, 0, 0)) = false := by
        intro m hm
        have := h (m + 1) (by simp at hm ⊢; omega)
        simpa [List.getD_cons_succ] using this
      simp [detectsAux, h0, ih (ii + 1) htail]

theorem accHit_eq_false_of_quiet_fst (s t : Axes) (hq : specAccQuiet s) :
    accHit s t = false := by
  obtain ⟨h1, h2, h3⟩ := hq
  have hAlt : ACC_MAX < 1 := by unfold ACC_MAX; norm_num
  have hzpos : (0 : ℚ) < s.2.2 := by
    have := (abs_le.mp h3).1
    linarith
  have hz : |(|s.2.2|) - 1| ≤ ACC_MAX := by
    rw [abs_of_pos hzpos]
    exact h3
  unfold accHit
  rw [decide_eq_false_iff_not]
  rintro (⟨hx, -⟩ | ⟨hy, -⟩ | ⟨hzz, -⟩)
  · exact absurd hx (not_lt.mpr h1)
  · exact absurd hy (not_lt.mpr h2)
  · exact absurd hzz (not_lt.mpr hz)

theorem accHit_eq_false_of_quiet_snd (s t : Axes) (hq : specAccQuiet t) :
    accHit s t = false := by
  obtain ⟨h1, h2, h3⟩ := hq
  unfold accHit
  rw [decide_eq_false_iff_not]
  rintro (⟨-, hx⟩ | ⟨-, hy⟩ | ⟨-, hz⟩)
  · exact absurd hx (not_lt.mpr ((le_abs_self _).trans h1))
  · exact absurd hy (not_lt.mpr ((le_abs_self _).trans h2))
  · exact absurd hz (not_lt.mpr h3)

/-- C7 counterexample: on samples 0.02 g, 0.02 g, 0 g, 0 g (X axis),
the detection list is `[1]`, and the sample immediately following
index 1 — index 2 — does not exceed threshold on any axis: the
recorded index is the *confirming* sample, so the sample after a
recorded index need not exceed threshold. -/
theorem zeroCrossings_following_sample_cex :
    zero_crossings_acc
      [((2 : ℚ) / 100, 0, 1), ((2 : ℚ) / 100, 0, 1), (0, 0, 1), (0, 0, 1)] =
      [1] ∧
    specAccQuiet ((0 : ℚ), 0, 1) := by
  have hq0 : specAccQuiet ((0 : ℚ), 0, 1) := by
    refine ⟨?_, ?_, ?_⟩ <;> norm_num [ACC_MAX]
  have ha : accHit ((2 : ℚ) / 100, 0, 1) ((2 : ℚ) / 100, 0, 1) = true := by
    unfold accHit ACC_MAX
    rw [decide_eq_true_eq]
    left
    constructor
    · rw [abs_of_nonneg (by norm_num)]
      norm_num
    · norm_num
  have hb : accHit ((2 : ℚ) / 100, 0, 1) (0, 0, 1) = false :=
    accHit_eq_false_of_quiet_snd _ _ hq0
  have hc : accHit ((0 : ℚ), 0, 1) (0, 0, 1) = false :=
    accHit_eq_false_of_quiet_fst _ _ hq0
  refine ⟨?_, hq0⟩
  unfold zero_crossings_acc
  simp [detectsAux, ha, hb, hc]

/-- C7 amended: every recorded detection index `d` is the confirming
sample of a pair — sample `d-1` exceeds threshold (absolute deviation)
and sample `d` confirms it (raw value on X/Y, gravity-adjusted
deviation on Z) — for both the accelerometer and the gyro pass; and a
single isolated above-threshold sample surrounded by below-threshold
samples never produces a detection. -/
theorem zeroCrossings_confirming_index (samples : List Axes) :
    (∀ d, d ∈ zero_crossings_acc samples →
      1 ≤ d ∧ d < samples.length ∧
      accHit (samples.getD (d - 1) (0, 0, 0))
        (samples.getD d (0, 0, 0)) = true) ∧
    (∀ d, d ∈ zero_crossings_gyr samples →
      1 ≤ d ∧ d < samples.length ∧
      gyrHit (samples.getD (d - 1) (0, 0, 0))
        (samples.getD d (0, 0, 0)) = true) ∧
    (∀ k, (∀ j, j < samples.length → j ≠ k →
        specAccQuiet (samples.getD j (0, 0, 0))) →
      zero_crossings_acc samples = []) := by
  refine ⟨?_, ?_, ?_⟩
  · intro d hd
    obtain ⟨ha, hb, hc⟩ := detectsAux_mem accHit samples 0 d hd
    refine ⟨by omega, by omega, ?_⟩
    simpa using hc
  · intro d hd
    obtain ⟨ha, hb, hc⟩ := detectsAux_mem gyrHit samples 0 d hd
    refine ⟨by omega, by omega, ?_⟩
    simpa using hc
  · intro k hk
    unfold zero_crossings_acc
    apply detectsAux_eq_nil
    intro m hm
    by_cases hmk : m = k
    · exact accHit_eq_false_of_quiet_snd _ _ (hk (m + 1) (by omega) (by omega))
    · exact accHit_eq_false_of_quiet_fst _ _ (hk m (by omega) hmk)

/-- C7 witness: the isolated-sample clause applied to a concrete
one-sample quiet list. -/
theorem zeroCrossings_confirming_index_witness :
    zero_crossings_acc [((0 : ℚ), 0, 1)] = [] :=
  (zeroCrossings_confirming_index [((0 : ℚ), 0, 1)]).2.2 5
    (fun j hj _ => by
      have hj0 : j = 0 := by simp at hj; omega
      subst hj0
      simp only [List.getD_cons_zero]
      refine ⟨?_, ?_, ?_⟩ <;> norm_num [ACC_MAX])

/-! ## Claim C1: auto-suppression and the quiescent scenario -/

theorem loop_imu_acc_replicate (cnt : Nat) (useCal calAccF : Bool) (ofs : Axes)
    (hl : List Nat) :
    loop_imu_acc cnt useCal calAccF ofs (List.replicate cnt hl) =
      List.replicate cnt
        (if useCal ∧ calAccF then applyAccCal ofs (accBytesToG hl)
         else accBytesToG hl) := by
  unfold loop_imu_acc
  rw [List.take_replicate, Nat.min_self, List.map_replicate]

theorem sum_replicate_div (n : Nat) (a : ℚ) (hn : (n : ℚ) ≠ 0) :
    (List.replicate n a).sum / (n : ℚ) = a := by
  rw [List.sum_replicate, nsmul_eq_mul]
  field_simp

theorem detectsAux_replicate (hit : Axes → Axes → Bool) (s : Axes)
    (h : hit s s = false) :
    ∀ (n ii : Nat), detectsAux hit (List.replicate n s) ii = [] := by
  intro n
  induction n with
  | zero => intro ii; rfl
  | succ m ih =>
    intro ii
    cases m with
    | zero => rfl
    | succ k =>
      have h2 := ih (ii + 1)
      simp only [List.replicate_succ] at h2 ⊢
      simp [detectsAux, h, h2]

theorem getD_replicate_of_lt (n m : Nat) (a d : Axes) (h : m < n) :
    (List.replicate n a).getD m d = a := by
  rw [List.getD_eq_getD_get?, List.get?_eq_getElem?, List.getElem?_replicate]
  simp [h]

/-- C1: on a perfectly constant no-motion input (X = 164 counts ≈
0.010 g, below the 0.016 g threshold; Z exactly 1 g), tare followed by
motion detection returns an empty detection list, but the emitted
values are the raw calibrated samples, not the snapped baseline: the
X value stays 164/16393 ≠ 0 even though its deviation does not exceed
threshold, because the auto-suppression assignments in
`zero_crossings` write loop locals and never the emitted list. -/
theorem do_acc_quiescent_not_snapped :
    (do_acc_fifo_tare 128 16 (List.replicate 128 [164, 0, 0, 0, 9, 64])
        (List.replicate 16 [164, 0, 0, 0, 9, 64])).1 = [] ∧
    (do_acc_fifo_tare 128 16 (List.replicate 128 [164, 0, 0, 0, 9, 64])
        (List.replicate 16 [164, 0, 0, 0, 9, 64])).2.1 =
      ((164 : ℚ) / 16393, 0, 1) ∧
    (164 : ℚ) / 16393 ≠ 0 ∧
    |(164 : ℚ) / 16393| ≤ ACC_MAX := by
  have habs : |(164 : ℚ) / 16393| = 164 / 16393 := abs_of_nonneg (by norm_num)
  have hbytes : accBytesToG [164, 0, 0, 0, 9, 64] = ((164 : ℚ) / 16393, 0, 1) := by
    unfold accBytesToG
    simp only [List.getD_cons_zero, List.getD_cons_succ]
    rw [show twos_comp (164 + 0 * 256) 16 = 164 from by decide,
        show twos_comp (0 + 0 * 256) 16 = 0 from by decide,
        show twos_comp (9 + 64 * 256) 16 = 16393 from by decide]
    norm_num
  have htare : calc_tare_acc 128 (List.replicate 128 [164, 0, 0, 0, 9, 64])
      (0, 0, 0) = (true, ((164 : ℚ) / 16393, 0, 1)) := by
    unfold calc_tare_acc
    rw [loop_imu_acc_replicate, hbytes]
    simp only [Bool.false_eq_true, false_and, if_false, List.map_replicate]
    rw [sum_replicate_div _ _ (by norm_num), sum_replicate_div _ _ (by norm_num),
        sum_replicate_div _ _ (by norm_num)]
    norm_num
  have hcal : applyAccCal ((164 : ℚ) / 16393, 0, 1) ((164 : ℚ) / 16393, 0, 1) =
      ((164 : ℚ) / 16393, 0, 1) := by
    unfold applyAccCal calAxisXY calAxisZ ACC_MAX
    rw [habs, abs_zero, abs_one]
    norm_num
  have hsamples : loop_imu_acc 16 true true ((164 : ℚ) / 16393, 0, 1)
      (List.replicate 16 [164, 0, 0, 0, 9, 64]) =
      List.replicate 16 ((164 : ℚ) / 16393, 0, 1) := by
    rw [loop_imu_acc_replicate, hbytes]
    simp [hcal]
  have hhit : accHit ((164 : ℚ) / 16393, 0, 1) ((164 : ℚ) / 16393, 0, 1) =
      false := by
    unfold accHit ACC_MAX
    rw [decide_eq_false_iff_not]
    rintro (⟨h1, -⟩ | ⟨h1, -⟩ | ⟨h1, -⟩)
    · rw [habs] at h1
      norm_num at h1
    · norm_num at h1
    · norm_num at h1
  have hdet : zero_crossings_acc (List.replicate 16 ((164 : ℚ) / 16393, 0, 1)) =
      [] := by
    unfold zero_crossings_acc
    exact detectsAux_replicate accHit _ hhit 16 0
  have main : do_acc_fifo_tare 128 16 (List.replicate 128 [164, 0, 0, 0, 9, 64])
      (List.replicate 16 [164, 0, 0, 0, 9, 64]) =
      ([], ((164 : ℚ) / 16393, 0, 1),
        List.replicate 16 ((164 : ℚ) / 16393, 0, 1)) := by
    unfold do_acc_fifo_tare
    rw [htare]
    dsimp only
    rw [hsamples, hdet]
    dsimp only [List.getLast?]
    rw [List.length_replicate]
    rw [getD_replicate_of_lt _ _ _ _ (by omega)]
  refine ⟨by rw [main], by rw [main], by norm_num, ?_⟩
  rw [habs]
  unfold ACC_MAX
  norm_num

end AFE
